import Mathlib

set_option maxHeartbeats 1000000

/- The arithmetic on `ℚ` is `@[irreducible]` upstream; re-allow unfolding
so that concrete runs of the engine can be settled by `decide`. -/
attribute [local semireducible] Rat.add Rat.sub Rat.mul Rat.inv

/-!
Shallow embedding of the blackjack rules engine found in
`src/js/deck.js` and `src/js/game.js` of the repository, together with
theorems settling the behavioural claims about it.  JS numbers that carry
money or counts are modelled as `ℚ` (all arithmetic the engine performs on
them is exact on the values that occur); machine randomness is modelled by
an oracle `rnd : Nat → Nat` supplying the raw random value for each loop
index of the Fisher–Yates shuffle.
-/

/-- Card ranks, `RANKS = ['A','2',...,'10','J','Q','K']` in `deck.js`. -/
inductive Rank where
  | ace | two | three | four | five | six | seven | eight | nine | ten
  | jack | queen | king
deriving DecidableEq

/-- Card suits, `SUITS = ['♠','♥','♦','♣']` in `deck.js`. -/
inductive Suit where
  | spades | hearts | diamonds | clubs
deriving DecidableEq

/-- `getCardValue(rank)` from `deck.js`: Ace = 11, face cards = 10,
otherwise the numeric rank. -/
def getCardValue : Rank → Nat
  | .ace => 11
  | .two => 2
  | .three => 3
  | .four => 4
  | .five => 5
  | .six => 6
  | .seven => 7
  | .eight => 8
  | .nine => 9
  | .ten => 10
  | .jack => 10
  | .queen => 10
  | .king => 10

/-- A playing card.  The JS object also carries derived display fields
(`isRed`, `color`, `id`, `toString`); only `suit`, `rank` and the one
mutable field `faceUp` influence the engine, the derived `value`/`isAce`
are recomputed below. -/
structure Card where
  suit : Suit
  rank : Rank
  faceUp : Bool
deriving DecidableEq

/-- `createCard(suit, rank)` from `deck.js` (`faceUp` starts `true`). -/
def createCard (suit : Suit) (rank : Rank) : Card :=
  { suit := suit, rank := rank, faceUp := true }

/-- The derived `value` field of a card. -/
def Card.value (c : Card) : Nat := getCardValue c.rank

/-- The derived `isAce` field of a card. -/
def Card.isAce (c : Card) : Bool := decide (c.rank = Rank.ace)

/-- Names of the card counting systems in `COUNTING_SYSTEMS`. -/
inductive CSName where
  | hiLo | ko | omega2 | hiOpt1 | hiOpt2
deriving DecidableEq

/-- The per-rank weight tables `COUNTING_SYSTEMS` from `deck.js`. -/
def systemWeight : CSName → Rank → Int
  | .hiLo, r =>
    match r with
    | .ace => -1 | .two => 1 | .three => 1 | .four => 1 | .five => 1
    | .six => 1 | .seven => 0 | .eight => 0 | .nine => 0
    | .ten => -1 | .jack => -1 | .queen => -1 | .king => -1
  | .ko, r =>
    match r with
    | .ace => -1 | .two => 1 | .three => 1 | .four => 1 | .five => 1
    | .six => 1 | .seven => 1 | .eight => 0 | .nine => 0
    | .ten => -1 | .jack => -1 | .queen => -1 | .king => -1
  | .omega2, r =>
    match r with
    | .ace => 0 | .two => 1 | .three => 1 | .four => 2 | .five => 2
    | .six => 2 | .seven => 1 | .eight => 0 | .nine => -1
    | .ten => -2 | .jack => -2 | .queen => -2 | .king => -2
  | .hiOpt1, r =>
    match r with
    | .ace => 0 | .two => 0 | .three => 1 | .four => 1 | .five => 1
    | .six => 1 | .seven => 0 | .eight => 0 | .nine => 0
    | .ten => -1 | .jack => -1 | .queen => -1 | .king => -1
  | .hiOpt2, r =>
    match r with
    | .ace => 0 | .two => 1 | .three => 1 | .four => 2 | .five => 2
    | .six => 1 | .seven => 1 | .eight => 0 | .nine => 0
    | .ten => -2 | .jack => -2 | .queen => -2 | .king => -2

/-- The `SUITS` constant of `deck.js`. -/
def SUITS : List Suit := [.spades, .hearts, .diamonds, .clubs]

/-- The `RANKS` constant of `deck.js`. -/
def RANKS : List Rank :=
  [.ace, .two, .three, .four, .five, .six, .seven, .eight, .nine, .ten,
   .jack, .queen, .king]

/-- The shoe, class `Deck` of `deck.js`.  `cards` is the draw pile in JS
array order (deals pop from the end), `dealtCards` the discard pile. -/
structure Deck where
  deckCount : Nat
  cards : List Card
  dealtCards : List Card
  penetration : ℚ
  runningCount : Int
  countingSystem : CSName
deriving DecidableEq

/-- The card list built by the loops of `Deck.initialize` : `deckCount`
repetitions of, for each suit, one card per rank. -/
def initCards (deckCount : Nat) : List Card :=
  (List.range deckCount).flatMap fun _ =>
    SUITS.flatMap fun suit => RANKS.map fun rank => createCard suit rank

/-- `Deck.initialize()` (renamed: rebuilds the draw pile, empties the
discard pile and resets the running count). -/
def Deck.initializeDeck (d : Deck) : Deck :=
  { d with cards := initCards d.deckCount, dealtCards := [], runningCount := 0 }

/-- One JS array-destructuring swap `[a[i], a[j]] = [a[j], a[i]]`.  Out of
bounds indices never occur in the shuffle loop; the guard keeps the
function total. -/
def listSwap (l : List α) (i j : Nat) : List α :=
  match l.get? i, l.get? j with
  | some a, some b => (l.set i b).set j a
  | _, _ => l

/-- The Fisher–Yates loop of `Deck.shuffle`: `for (i = n-1; i > 0; i--)`
picks `j = rnd(i) % (i+1)` and swaps positions `i` and `j`.  The argument
is the current loop index `i`. -/
def fisherYatesAux (rnd : Nat → Nat) : Nat → List Card → List Card
  | 0, l => l
  | i + 1, l => fisherYatesAux rnd i (listSwap l (i + 1) (rnd (i + 1) % (i + 1 + 1)))

/-- `Deck.shuffle()`: Fisher–Yates over the draw pile, then clears the
discard pile and resets the running count.  `rnd` supplies the raw random
value drawn at loop index `i` (crypto or `Math.random` path). -/
def Deck.shuffle (d : Deck) (rnd : Nat → Nat) : Deck :=
  { d with cards := fisherYatesAux rnd (d.cards.length - 1) d.cards,
           dealtCards := [], runningCount := 0 }

/-- `Deck.deal()`: pops the last card of the draw pile onto the discard
pile; returns `none` (JS `null`) when the shoe is empty. -/
def Deck.deal (d : Deck) : Option Card × Deck :=
  match d.cards.getLast? with
  | none => (none, d)
  | some card =>
    (some card,
     { d with cards := d.cards.dropLast, dealtCards := d.dealtCards ++ [card] })

/-- `Deck.updateCount(card)`: no-op on `null` or a face-down card,
otherwise adds the active system's weight for the card's rank.  Every rank
is mapped in every system, so the JS `|| 0` fallback never fires. -/
def Deck.updateCount (d : Deck) (card : Option Card) : Deck :=
  match card with
  | none => d
  | some c =>
    if c.faceUp then
      { d with runningCount := d.runningCount + systemWeight d.countingSystem c.rank }
    else d

/-- JS `Math.round`: round half toward positive infinity. -/
def jsRound (q : ℚ) : Int := ⌊q + 1 / 2⌋

/-- `Deck.getTrueCount()` from `deck.js` (`0.5` written as `1/2`). -/
def Deck.getTrueCount (d : Deck) : Int :=
  let decksRemaining : ℚ := (d.cards.length : ℚ) / 52
  if decksRemaining < 1 / 2 then d.runningCount
  else jsRound ((d.runningCount : ℚ) / decksRemaining)

/-- `Deck.getRunningCount()`. -/
def Deck.getRunningCount (d : Deck) : Int := d.runningCount

/-- `Deck.reshuffle()`: merges the discard pile back into the draw pile,
clears it, resets the count and shuffles. -/
def Deck.reshuffle (d : Deck) (rnd : Nat → Nat) : Deck :=
  Deck.shuffle
    { d with cards := d.cards ++ d.dealtCards, dealtCards := [], runningCount := 0 }
    rnd

/-- A betting hand, class `Hand` of `deck.js`. -/
structure Hand where
  cards : List Card
  bet : ℚ
  isDoubled : Bool
  isSplit : Bool
  isStood : Bool
  isBusted : Bool
  isSurrendered : Bool
  insuranceBet : ℚ
deriving DecidableEq

/-- The `Hand` constructor: everything empty / false / zero. -/
def Hand.init : Hand :=
  { cards := [], bet := 0, isDoubled := false, isSplit := false,
    isStood := false, isBusted := false, isSurrendered := false,
    insuranceBet := 0 }

/-- The running sum `value` accumulated by the loop in `Hand.getValue`. -/
def Hand.rawValue (h : Hand) : Nat :=
  h.cards.foldl (fun acc c => acc + c.value) 0

/-- The `aces` counter accumulated by the same loop. -/
def Hand.aceCount (h : Hand) : Nat :=
  h.cards.countP fun c => c.isAce

/-- The `while (value > 21 && aces > 0) value -= 10` loop of
`Hand.getValue`, recursing on the number of aces left. -/
def reduceAces : Nat → Nat → Nat
  | value, 0 => value
  | value, aces + 1 => if 21 < value then reduceAces (value - 10) aces else value

/-- `Hand.getValue()`. -/
def Hand.getValue (h : Hand) : Nat := reduceAces h.rawValue h.aceCount

/-- `Hand.isSoft()`: at least one ace and the un-reduced total is ≤ 21. -/
def Hand.isSoft (h : Hand) : Bool :=
  decide (0 < h.aceCount ∧ h.rawValue ≤ 21)

/-- `Hand.isBlackjack()`: two cards, value 21, not a split hand. -/
def Hand.isBlackjack (h : Hand) : Bool :=
  decide (h.cards.length = 2 ∧ h.getValue = 21 ∧ h.isSplit = false)

/-- `Hand.canSplit()`: exactly two cards of equal rank. -/
def Hand.canSplit (h : Hand) : Bool :=
  match h.cards with
  | [c0, c1] => decide (c0.rank = c1.rank)
  | _ => false

/-- `Hand.canDouble(anyCards)` (the JS default argument is `false`). -/
def Hand.canDouble (h : Hand) (anyCards : Bool) : Bool :=
  if h.isDoubled then false
  else if anyCards then true
  else decide (h.cards.length = 2)

/-- `Hand.checkBust()`: latches `isBusted` once the value exceeds 21. -/
def Hand.checkBust (h : Hand) : Hand :=
  if 21 < h.getValue then { h with isBusted := true } else h

/-- `Hand.addCard(card)`: append then re-derive bust status. -/
def Hand.addCard (h : Hand) (card : Card) : Hand :=
  Hand.checkBust { h with cards := h.cards ++ [card] }

/-- `Hand.clear()`: reset every field. -/
def Hand.clear (_ : Hand) : Hand := Hand.init

/-- A hand built from empty solely by `addCard` calls. -/
def mkHand (cs : List Card) : Hand := cs.foldl Hand.addCard Hand.init

/-- The `GameState` constants of `game.js`. -/
inductive GState where
  | BETTING | DEALING | INSURANCE | PLAYER_TURN | DEALER_TURN | PAYOUT | GAME_OVER
deriving DecidableEq

/-- The running statistics record `this.stats` of `BlackjackGame`. -/
structure Stats where
  handsPlayed : Nat
  handsWon : Nat
  handsLost : Nat
  handsPushed : Nat
  blackjacks : Nat
  totalWagered : ℚ
  netProfit : ℚ
deriving DecidableEq

/-- The configuration record `this.settings` of `BlackjackGame`. -/
structure Settings where
  deckCount : Nat
  dealerHitsSoft17 : Bool
  blackjackPays : ℚ
  doubleAfterSplit : Bool
  resplitAces : Bool
  surrenderAllowed : Bool
  insuranceAllowed : Bool
  countingEnabled : Bool
  countingSystem : CSName
  minBet : ℚ
  maxBet : ℚ
  autoStandOn21 : Bool
  numHands : Nat
  dealerHoleCard : Bool
deriving DecidableEq

/-- The aggregate state of class `BlackjackGame` (persistence callbacks and
notification hooks are external side effects and carry no engine state). -/
structure BlackjackGame where
  deck : Deck
  playerHands : List Hand
  dealerHand : Hand
  currentHandIndex : Nat
  state : GState
  balance : ℚ
  currentBet : ℚ
  settings : Settings
  stats : Stats
deriving DecidableEq

/-- The `currentHand` getter, `this.playerHands[this.currentHandIndex]`.
An out-of-range index (never reached in play) yields the empty hand. -/
def BlackjackGame.currentHand (g : BlackjackGame) : Hand :=
  g.playerHands.getD g.currentHandIndex Hand.init

/-- The assignment `this.playerHands[0].bet = amount` in `placeBet` (a
missing hand 0 would be a JS `TypeError`; the list is never empty). -/
def setBetOnHand (hands : List Hand) (i : Nat) (amount : ℚ) : List Hand :=
  match hands.get? i with
  | some h => hands.set i { h with bet := amount }
  | none => hands

/-- `BlackjackGame.placeBet(amount)`: the returned `Bool` is the JS return
value, the returned game the state after the call. -/
def BlackjackGame.placeBet (g : BlackjackGame) (amount : ℚ) : Bool × BlackjackGame :=
  if g.state ≠ GState.BETTING then (false, g)
  else if amount < g.settings.minBet ∨ g.settings.maxBet < amount then (false, g)
  else if g.balance < amount then (false, g)
  else
    (true,
     { g with currentBet := amount,
              balance := g.balance - amount,
              playerHands := setBetOnHand g.playerHands 0 amount,
              stats := { g.stats with totalWagered := g.stats.totalWagered + amount } })

/-- Which hand object a card is dealt to (JS passes the hand by
reference; the player hands are identified by their index). -/
inductive HandTarget where
  | player (i : Nat)
  | dealer
deriving DecidableEq

/-- Read the hand a target refers to. -/
def BlackjackGame.getHand (g : BlackjackGame) (t : HandTarget) : Hand :=
  match t with
  | .player i => g.playerHands.getD i Hand.init
  | .dealer => g.dealerHand

/-- Write back the hand a target refers to. -/
def BlackjackGame.setHand (g : BlackjackGame) (t : HandTarget) (h : Hand) : BlackjackGame :=
  match t with
  | .player i => { g with playerHands := g.playerHands.set i h }
  | .dealer => { g with dealerHand := h }

/-- `BlackjackGame.dealCardToHand(hand, faceUp)`: pops a card off the
shoe, stamps its `faceUp` flag, appends it to the hand and, when face-up,
feeds it to `updateCount`.  In JS the discarded copy aliases the dealt
card, so the discard pile records the stamped flag; an empty shoe would
throw in JS (`null.faceUp`) and is modelled as a no-op, unreachable
because callers reshuffle first. -/
def BlackjackGame.dealCardToHand (g : BlackjackGame) (t : HandTarget) (faceUp : Bool) :
    BlackjackGame :=
  match g.deck.cards.getLast? with
  | none => g
  | some card0 =>
    let card := { card0 with faceUp := faceUp }
    let deck := { g.deck with cards := g.deck.cards.dropLast,
                              dealtCards := g.deck.dealtCards ++ [card] }
    let g := { g with deck := deck }
    let g := g.setHand t ((g.getHand t).addCard card)
    if faceUp then { g with deck := g.deck.updateCount (some card) } else g

/-- `endRound()`. -/
def BlackjackGame.endRound (g : BlackjackGame) : BlackjackGame :=
  { g with state := GState.GAME_OVER }

/-- The two statements `this.dealerHand.cards[1].faceUp = true;
this.deck.updateCount(this.dealerHand.cards[1]);` repeated verbatim in
`handleInsuranceDecision`, `handleBlackjack` and `dealerTurn`.  A dealer
hand with fewer than two cards would be a JS `TypeError` and leaves the
state unchanged here (unreachable in play). -/
def BlackjackGame.revealHole (g : BlackjackGame) : BlackjackGame :=
  match g.dealerHand.cards.get? 1 with
  | none => g
  | some c =>
    let card := { c with faceUp := true }
    let g := { g with dealerHand :=
      { g.dealerHand with cards := g.dealerHand.cards.set 1 card } }
    { g with deck := g.deck.updateCount (some card) }

/-- `handleBlackjack()`: reveal and count the hole card, push against a
dealer natural, otherwise pay `bet * (1 + blackjackPays)` and update the
statistics; the round then ends. -/
def BlackjackGame.handleBlackjack (g : BlackjackGame) : BlackjackGame :=
  let g := g.revealHole
  let g :=
    if g.dealerHand.isBlackjack then
      { g with balance := g.balance + g.currentHand.bet,
               stats := { g.stats with handsPushed := g.stats.handsPushed + 1 } }
    else
      let winnings := g.currentHand.bet * (1 + g.settings.blackjackPays)
      { g with balance := g.balance + winnings,
               stats := { g.stats with
                 handsWon := g.stats.handsWon + 1,
                 blackjacks := g.stats.blackjacks + 1,
                 netProfit := g.stats.netProfit + (winnings - g.currentHand.bet) } }
  g.endRound

/-- The `if (takeInsurance) {...}` prefix of `handleInsuranceDecision`:
deduct and record the half-bet insurance stake when taken and
affordable. -/
def BlackjackGame.applyInsuranceChoice (g : BlackjackGame) (takeInsurance : Bool) :
    BlackjackGame :=
  if takeInsurance then
    let insuranceAmount := g.currentHand.bet / 2
    if insuranceAmount ≤ g.balance then
      { g with balance := g.balance - insuranceAmount,
               playerHands := g.playerHands.set g.currentHandIndex
                 { g.currentHand with insuranceBet := insuranceAmount } }
    else g
  else g

/-- `BlackjackGame.handleInsuranceDecision(takeInsurance)`. -/
def BlackjackGame.handleInsuranceDecision (g : BlackjackGame) (takeInsurance : Bool) :
    BlackjackGame :=
  if g.state ≠ GState.INSURANCE then g
  else
    let g := g.applyInsuranceChoice takeInsurance
    if g.dealerHand.isBlackjack then
      let g := g.revealHole
      let g :=
        if 0 < g.currentHand.insuranceBet then
          { g with balance := g.balance + g.currentHand.insuranceBet * 3 }
        else g
      let g :=
        if g.currentHand.isBlackjack then
          { g with balance := g.balance + g.currentHand.bet,
                   stats := { g.stats with handsPushed := g.stats.handsPushed + 1 } }
        else
          { g with stats := { g.stats with
              handsLost := g.stats.handsLost + 1,
              netProfit := g.stats.netProfit - g.currentHand.bet } }
      g.endRound
    else if g.currentHand.isBlackjack then g.handleBlackjack
    else { g with state := GState.PLAYER_TURN }

/-- `shouldDealerHit()`: hit below 17, hit soft 17 when configured. -/
def BlackjackGame.shouldDealerHit (g : BlackjackGame) : Bool :=
  let value := g.dealerHand.getValue
  if value < 17 then true
  else if value = 17 ∧ g.dealerHand.isSoft = true ∧ g.settings.dealerHitsSoft17 = true then
    true
  else false

/-- `resolveHands()`: settle every player hand against the dealer,
accumm the signed total, bump the statistics and end the round.  The
per-hand pacing callback is presentation only. -/
def BlackjackGame.resolveHands (g : BlackjackGame) : BlackjackGame :=
  let g := { g with state := GState.PAYOUT }
  let dealerValue := g.dealerHand.getValue
  let dealerBusted := g.dealerHand.isBusted
  let step := fun (acc : BlackjackGame × ℚ) (hand : Hand) =>
    let g := acc.1
    let totalWinnings := acc.2
    let payoutStats : ℚ × Stats :=
      if hand.isSurrendered then
        (hand.bet / 2, g.stats)
      else if hand.isBusted then
        (0, { g.stats with handsLost := g.stats.handsLost + 1,
                           netProfit := g.stats.netProfit - hand.bet })
      else if dealerBusted then
        (hand.bet * 2, { g.stats with handsWon := g.stats.handsWon + 1,
                                      netProfit := g.stats.netProfit + hand.bet })
      else if dealerValue < hand.getValue then
        (hand.bet * 2, { g.stats with handsWon := g.stats.handsWon + 1,
                                      netProfit := g.stats.netProfit + hand.bet })
      else if hand.getValue < dealerValue then
        (0, { g.stats with handsLost := g.stats.handsLost + 1,
                           netProfit := g.stats.netProfit - hand.bet })
      else
        (hand.bet, { g.stats with handsPushed := g.stats.handsPushed + 1 })
    ({ g with balance := g.balance + payoutStats.1, stats := payoutStats.2 },
     totalWinnings + (payoutStats.1 - hand.bet))
  let folded := g.playerHands.foldl step (g, 0)
  let g := folded.1
  let g := { g with stats := { g.stats with handsPlayed := g.stats.handsPlayed + 1 } }
  g.endRound

/-- The `while (this.shouldDealerHit())` draw loop of `dealerTurn`.  Every
iteration removes one card from the shoe, so the shoe size bounds the
iteration count; an exhausted shoe would crash in JS. -/
def BlackjackGame.dealerDrawLoop : Nat → BlackjackGame → BlackjackGame
  | 0, g => g
  | fuel + 1, g =>
    if g.shouldDealerHit then
      BlackjackGame.dealerDrawLoop fuel (g.dealCardToHand HandTarget.dealer true)
    else g

/-- `dealerTurn()`: if every player hand is busted or surrendered, only
reveal and count the hole card and settle; otherwise reveal, draw while
`shouldDealerHit()`, then settle. -/
def BlackjackGame.dealerTurn (g : BlackjackGame) : BlackjackGame :=
  let allBustedOrSurrendered :=
    g.playerHands.all fun h => h.isBusted || h.isSurrendered
  if allBustedOrSurrendered then
    (g.revealHole).resolveHands
  else
    let g := { g with state := GState.DEALER_TURN }
    let g := g.revealHole
    (BlackjackGame.dealerDrawLoop g.deck.cards.length g).resolveHands

/-- `handleHandComplete()`: advance to the next hand (dealing it its
second card when it came from a split), or run the dealer turn. -/
def BlackjackGame.handleHandComplete (g : BlackjackGame) : BlackjackGame :=
  if g.currentHandIndex < g.playerHands.length - 1 then
    let g := { g with currentHandIndex := g.currentHandIndex + 1 }
    if g.currentHand.cards.length = 1 then
      g.dealCardToHand (HandTarget.player g.currentHandIndex) true
    else g
  else
    g.dealerTurn

/-- `BlackjackGame.surrender()`. -/
def BlackjackGame.surrender (g : BlackjackGame) : BlackjackGame :=
  if g.state ≠ GState.PLAYER_TURN then g
  else if g.currentHand.cards.length ≠ 2 then g
  else if !g.settings.surrenderAllowed then g
  else
    let marked := { g.currentHand with isSurrendered := true }
    let g := { g with playerHands := g.playerHands.set g.currentHandIndex marked }
    let returnAmount := g.currentHand.bet / 2
    let g := { g with balance := g.balance + returnAmount }
    g.handleHandComplete

/-- `l.splice(i, 0, a)`: insert `a` at position `i`. -/
def listInsertIdx (l : List α) (i : Nat) (a : α) : List α :=
  l.take i ++ a :: l.drop i

/-- `BlackjackGame.split()`: guarded only by the phase, the hand-level
pair test and affordability; the new hand receives the popped second card
and is spliced in right after the current hand, which is then dealt a
fresh card. -/
def BlackjackGame.split (g : BlackjackGame) : BlackjackGame :=
  if g.state ≠ GState.PLAYER_TURN then g
  else if !g.currentHand.canSplit then g
  else
    let additionalBet := g.currentHand.bet
    if g.balance < additionalBet then g
    else
      let g := { g with balance := g.balance - additionalBet,
                        stats := { g.stats with
                          totalWagered := g.stats.totalWagered + additionalBet } }
      let newHand :=
        match g.currentHand.cards.getLast? with
        | some c =>
          Hand.addCard { Hand.init with bet := additionalBet, isSplit := true } c
        | none => { Hand.init with bet := additionalBet, isSplit := true }
      let cur := { g.currentHand with cards := g.currentHand.cards.dropLast,
                                      isSplit := true }
      let hands :=
        listInsertIdx (g.playerHands.set g.currentHandIndex cur)
          (g.currentHandIndex + 1) newHand
      let g := { g with playerHands := hands }
      g.dealCardToHand (HandTarget.player g.currentHandIndex) true

/-- The game-level `canSplit()` predicate: phase, hand-level pair test,
affordability, and the four-hand table cap. -/
def BlackjackGame.canSplit (g : BlackjackGame) : Bool :=
  if g.state ≠ GState.PLAYER_TURN then false
  else if !g.currentHand.canSplit then false
  else if g.balance < g.currentHand.bet then false
  else if 4 ≤ g.playerHands.length then false
  else true

/-- The recommended-action labels of the strategy advisor. -/
inductive GameAction where
  | HIT | STAND | DOUBLE | SPLIT | SURRENDER | TAKE_INSURANCE
deriving DecidableEq

/-- One entry of `DEVIATION_INDICES`: threshold, deviation action, the
optional below-threshold action and the informational `normal` field
(never read by the logic). -/
structure DevEntry where
  threshold : Int
  action : GameAction
  belowAction : Option GameAction
  normal : Option GameAction
deriving DecidableEq

/-- The numeric-keyed part of `DEVIATION_INDICES` (`game.js`), looked up
by the string key playerValue-underscore-dealerValue. -/
def DEVIATION_INDICES (playerValue dealerValue : Nat) : Option DevEntry :=
  match playerValue, dealerValue with
  | 16, 10 => some ⟨0, .STAND, none, some .HIT⟩
  | 15, 10 => some ⟨4, .STAND, none, some .HIT⟩
  | 10, 10 => some ⟨4, .DOUBLE, none, some .HIT⟩
  | 12, 3 => some ⟨2, .STAND, none, some .HIT⟩
  | 12, 2 => some ⟨3, .STAND, none, some .HIT⟩
  | 11, 11 => some ⟨1, .DOUBLE, none, some .HIT⟩
  | 9, 2 => some ⟨1, .DOUBLE, none, some .HIT⟩
  | 10, 11 => some ⟨4, .DOUBLE, none, some .HIT⟩
  | 9, 7 => some ⟨3, .DOUBLE, none, some .HIT⟩
  | 16, 9 => some ⟨5, .STAND, none, some .HIT⟩
  | 13, 2 => some ⟨-1, .STAND, none, some .STAND⟩
  | 12, 4 => some ⟨0, .STAND, some .HIT, some .STAND⟩
  | 12, 5 => some ⟨-2, .STAND, some .HIT, some .STAND⟩
  | 12, 6 => some ⟨-1, .STAND, some .HIT, some .STAND⟩
  | 13, 3 => some ⟨-2, .STAND, some .HIT, some .STAND⟩
  | _, _ => none

/-- The ten-ten pair entries of `DEVIATION_INDICES`, keys `TT_5` and
`TT_6`. -/
def DEVIATION_INDICES_TT (dealerValue : Nat) : Option DevEntry :=
  match dealerValue with
  | 5 => some ⟨5, .SPLIT, none, some .STAND⟩
  | 6 => some ⟨4, .SPLIT, none, some .STAND⟩
  | _ => none

/-- The `insurance` entry of `DEVIATION_INDICES` (present in the table,
never matched by the numeric or TT key shapes used by the two lookup
functions). -/
def DEVIATION_INSURANCE : DevEntry := ⟨3, .TAKE_INSURANCE, none, none⟩

/-- The test `playerHand.cards[0].value === 10` guarding the ten-ten
branch of both deviation functions. -/
def card0ValueIs10 (h : Hand) : Bool :=
  match h.cards.get? 0 with
  | some c => decide (c.value = 10)
  | none => false

/-- `checkDeviationIndex(playerHand, dealerValue, trueCount, canDouble,
canSplit)` from `game.js`: the decision function, suppressing a DOUBLE or
SPLIT deviation when the action is unavailable. -/
def checkDeviationIndex (playerHand : Hand) (dealerValue : Nat) (trueCount : Int)
    (canDouble canSplit : Bool) : Option GameAction :=
  let playerValue := playerHand.getValue
  let isPair := playerHand.canSplit
  let ttHit : Option GameAction :=
    if isPair = true ∧ card0ValueIs10 playerHand = true ∧ canSplit = true then
      match DEVIATION_INDICES_TT dealerValue with
      | some dev => if dev.threshold ≤ trueCount then some dev.action else none
      | none => none
    else none
  match ttHit with
  | some a => some a
  | none =>
    match DEVIATION_INDICES playerValue dealerValue with
    | some dev =>
      if dev.belowAction.isSome = true ∧ trueCount < dev.threshold then dev.belowAction
      else if dev.threshold ≤ trueCount then
        if dev.action = GameAction.DOUBLE ∧ canDouble = false then none
        else if dev.action = GameAction.SPLIT ∧ canSplit = false then none
        else some dev.action
      else none
    | none => none

/-- The return shape of `getDeviationInfo`: a JS object whose fields
beyond `isDeviation` are absent (`none`) when no deviation applies. -/
structure DeviationInfo where
  isDeviation : Bool
  threshold : Option Int
  action : Option GameAction
  reason : Option String
deriving DecidableEq

/-- The sign-prefixed rendering used in the `reason` template strings. -/
def signFmt (n : Int) : String :=
  (if 0 ≤ n then "+" else "") ++ toString n

/-- Reason text for an at-or-above-threshold deviation. -/
def reasonGE (trueCount threshold : Int) : String :=
  "TC " ++ signFmt trueCount ++ " >= " ++ signFmt threshold

/-- Reason text for a below-threshold deviation. -/
def reasonLT (trueCount threshold : Int) : String :=
  "TC " ++ signFmt trueCount ++ " < " ++ signFmt threshold

/-- `getDeviationInfo(playerHand, dealerValue, trueCount)` from
`game.js`: the display companion; note it takes no legality flags. -/
def getDeviationInfo (playerHand : Hand) (dealerValue : Nat) (trueCount : Int) :
    DeviationInfo :=
  let playerValue := playerHand.getValue
  let isPair := playerHand.canSplit
  let ttHit : Option DeviationInfo :=
    if isPair = true ∧ card0ValueIs10 playerHand = true then
      match DEVIATION_INDICES_TT dealerValue with
      | some dev =>
        if dev.threshold ≤ trueCount then
          some ⟨true, some dev.threshold, some dev.action,
                some (reasonGE trueCount dev.threshold)⟩
        else none
      | none => none
    else none
  match ttHit with
  | some info => info
  | none =>
    match DEVIATION_INDICES playerValue dealerValue with
    | some dev =>
      if dev.belowAction.isSome = true ∧ trueCount < dev.threshold then
        ⟨true, some dev.threshold, dev.belowAction,
         some (reasonLT trueCount dev.threshold)⟩
      else if dev.threshold ≤ trueCount then
        ⟨true, some dev.threshold, some dev.action,
         some (reasonGE trueCount dev.threshold)⟩
      else ⟨false, none, none, none⟩
    | none => ⟨false, none, none, none⟩

/-- Whether the dealer hole card (`dealerHand.cards[1]`) is face-up. -/
def holeRevealed (g : BlackjackGame) : Bool :=
  match g.dealerHand.cards.get? 1 with
  | some c => c.faceUp
  | none => false

/-- A card created face-down (a card dealt with `faceUp = false`). -/
def faceDownCard (s : Suit) (r : Rank) : Card :=
  { suit := s, rank := r, faceUp := false }

/-- The constructor defaults of `this.settings` (`CONFIG` of `game.js`:
min bet 10, max bet 999000000000, blackjack pays 3/2). -/
def defaultSettings : Settings :=
  { deckCount := 6, dealerHitsSoft17 := true, blackjackPays := 3 / 2,
    doubleAfterSplit := true, resplitAces := false, surrenderAllowed := true,
    insuranceAllowed := true, countingEnabled := false, countingSystem := .hiLo,
    minBet := 10, maxBet := 999000000000, autoStandOn21 := true, numHands := 1,
    dealerHoleCard := true }

/-- Fresh all-zero statistics. -/
def defaultStats : Stats :=
  { handsPlayed := 0, handsWon := 0, handsLost := 0, handsPushed := 0,
    blackjacks := 0, totalWagered := 0, netProfit := 0 }

/-- A shoe holding the given draw pile, Hi-Lo counting, count zero. -/
def deckWith (cs : List Card) : Deck :=
  { deckCount := 6, cards := cs, dealtCards := [], penetration := 3 / 4,
    runningCount := 0, countingSystem := .hiLo }

/-- Concrete round for claim C1: balance was 10000 before a bet of 100
was placed; the player now holds an untouched two-card 17 against a
dealer 9 with the hole card face-down. -/
def gC1 : BlackjackGame :=
  { deck := deckWith [createCard .spades .two, createCard .spades .three],
    playerHands := [{ Hand.init with
      cards := [createCard .spades .king, createCard .hearts .seven],
      bet := 100 }],
    dealerHand := { Hand.init with
      cards := [createCard .clubs .nine, faceDownCard .diamonds .five] },
    currentHandIndex := 0, state := GState.PLAYER_TURN,
    balance := 9900, currentBet := 100,
    settings := defaultSettings, stats := defaultStats }

/-- Concrete insurance decision point for claim C2: dealer shows an ace
with a face-down 9 underneath (no blackjack), player holds 12 (no
blackjack). -/
def gC2 : BlackjackGame :=
  { deck := deckWith [createCard .spades .two],
    playerHands := [{ Hand.init with
      cards := [createCard .spades .five, createCard .hearts .seven],
      bet := 100 }],
    dealerHand := { Hand.init with
      cards := [createCard .clubs .ace, faceDownCard .diamonds .nine] },
    currentHandIndex := 0, state := GState.INSURANCE,
    balance := 9900, currentBet := 100,
    settings := defaultSettings, stats := defaultStats }

/-- A pair of eights staked at 100, ready to split. -/
def h88 : Hand :=
  { Hand.init with
    cards := [createCard .spades .eight, createCard .hearts .eight], bet := 100 }

/-- A finished 16 created by an earlier split (filler hand). -/
def hFiller : Hand :=
  { Hand.init with
    cards := [createCard .clubs .ten, createCard .clubs .six],
    bet := 100, isSplit := true, isStood := true }

/-- Concrete state for claim C3: four player hands already exist (the cap
of `canSplit()`), the current one a splittable pair of eights, funds
ample.  Reachable by splitting a stacked shoe three times. -/
def gC3 : BlackjackGame :=
  { deck := deckWith [createCard .diamonds .two, createCard .diamonds .three],
    playerHands := [h88, hFiller, hFiller, hFiller],
    dealerHand := { Hand.init with
      cards := [createCard .clubs .nine, faceDownCard .diamonds .five] },
    currentHandIndex := 0, state := GState.PLAYER_TURN,
    balance := 1000, currentBet := 100,
    settings := defaultSettings, stats := defaultStats }

/-- The all-zero random oracle (every loop step swaps with index 0). -/
def rndZero : Nat → Nat := fun _ => 0

/-- A freshly initialized single-deck shoe. -/
def dInit : Deck :=
  { deckCount := 1, cards := initCards 1, dealtCards := [],
    penetration := 3 / 4, runningCount := 0, countingSystem := .hiLo }

/-- A single-deck shoe from which one card has been dealt: the discard
pile is non-empty (claim C4's quantification includes this state). -/
def dC4 : Deck :=
  { dInit with cards := (initCards 1).dropLast,
               dealtCards := (initCards 1).drop 51, runningCount := 3 }

/-- A hard ten (6+4) that is not a pair: hits the `10_10` deviation
entry. -/
def hC5 : Hand :=
  { Hand.init with
    cards := [createCard .spades .six, createCard .spades .four] }

/-- A nearly exhausted shoe (10 cards < 26) with running count 5. -/
def dW7a : Deck := { dInit with cards := (initCards 1).take 10, runningCount := 5 }

/-- A full single-deck shoe (52 cards, exactly one deck remaining) with
running count 3. -/
def dW7b : Deck := { dInit with runningCount := 3 }

/-- A fresh game sitting in the betting phase with the default bankroll. -/
def gW8 : BlackjackGame :=
  { deck := dInit, playerHands := [Hand.init], dealerHand := Hand.init,
    currentHandIndex := 0, state := GState.BETTING,
    balance := 10000, currentBet := 0,
    settings := defaultSettings, stats := defaultStats }

/-- A game about to deal from a one-card shoe (witness for the
`dealCardToHand` count bookkeeping). -/
def gW9 : BlackjackGame :=
  { gW8 with deck := deckWith [createCard .spades .five],
             state := GState.PLAYER_TURN }

/-- The soft 16 `[A,5]` built by `addCard` calls. -/
def hA5 : Hand := mkHand [createCard .spades .ace, createCard .hearts .five]

/-- A busted hard 25 built by `addCard` calls. -/
def hKQ5 : Hand :=
  mkHand [createCard .spades .king, createCard .hearts .queen,
          createCard .clubs .five]

/-! ## Helper lemmas about the ace-reduction loop -/

/-- When the reduction loop ends above 21 every ace was reduced. -/
theorem reduceAces_of_gt : ∀ (a v : Nat), 21 < reduceAces v a → reduceAces v a = v - 10 * a := by
  intro a
  induction a with
  | zero => intro v _; simp [reduceAces]
  | succ a ih =>
    intro v hv
    by_cases h : 21 < v
    · simp only [reduceAces, if_pos h] at hv ⊢
      rw [ih _ hv]
      omega
    · simp only [reduceAces, if_neg h] at hv ⊢
      omega

/-- The reduction loop removes at most 10 per ace. -/
theorem le_reduceAces : ∀ (a v : Nat), v - 10 * a ≤ reduceAces v a := by
  intro a
  induction a with
  | zero => intro v; simp [reduceAces]
  | succ a ih =>
    intro v
    by_cases h : 21 < v
    · simp only [reduceAces, if_pos h]
      have := ih (v - 10)
      omega
    · simp only [reduceAces, if_neg h]
      omega

/-- Every card is worth at least 2. -/
theorem two_le_value (c : Card) : 2 ≤ c.value := by
  cases c with
  | mk s r f => cases r <;> simp [Card.value, getCardValue]

/-- An ace is worth 11. -/
theorem value_of_ace (c : Card) (h : c.isAce = true) : c.value = 11 := by
  cases c with
  | mk s r f =>
    simp [Card.isAce, decide_eq_true_eq] at h
    subst h
    rfl

/-- `addCard` appends the card (bust latching does not touch the cards). -/
theorem addCard_cards (h : Hand) (c : Card) : (h.addCard c).cards = h.cards ++ [c] := by
  unfold Hand.addCard Hand.checkBust
  split <;> rfl

/-- The raw total after `addCard`. -/
theorem addCard_rawValue (h : Hand) (c : Card) :
    (h.addCard c).rawValue = h.rawValue + c.value := by
  unfold Hand.rawValue
  rw [addCard_cards, List.foldl_append]
  rfl

/-- The ace count after `addCard`. -/
theorem addCard_aceCount (h : Hand) (c : Card) :
    (h.addCard c).aceCount = h.aceCount + (if c.isAce then 1 else 0) := by
  unfold Hand.aceCount
  rw [addCard_cards, List.countP_append]
  simp [List.countP_cons]

/-- `getValue` depends on the cards only. -/
theorem getValue_cards_only (h h' : Hand) (e : h.cards = h'.cards) :
    h.getValue = h'.getValue := by
  simp [Hand.getValue, Hand.rawValue, Hand.aceCount, e]

/-- The bust latch is never cleared by `addCard`. -/
theorem addCard_isBusted_true (h : Hand) (c : Card) (hb : h.isBusted = true) :
    (h.addCard c).isBusted = true := by
  unfold Hand.addCard Hand.checkBust
  split <;> simp [hb]

/-- Adding any card to a busted hand raises `getValue` by at least one
(by 11 minus 10 for an ace, by the face value otherwise). -/
theorem addCard_getValue_of_busted (h : Hand) (c : Card) (hb : 21 < h.getValue) :
    h.getValue + 1 ≤ (h.addCard c).getValue := by
  have h1 := reduceAces_of_gt h.aceCount h.rawValue hb
  have h2 : (h.addCard c).getValue =
      reduceAces (h.rawValue + c.value) (h.aceCount + if c.isAce then 1 else 0) := by
    unfold Hand.getValue
    rw [addCard_rawValue, addCard_aceCount]
  have h3 := le_reduceAces (h.aceCount + if c.isAce then 1 else 0)
    (h.rawValue + c.value)
  unfold Hand.getValue at hb h1 h2 ⊢
  cases hA : c.isAce with
  | true =>
    have hv := value_of_ace c hA
    simp only [hA, if_true] at h2 h3
    omega
  | false =>
    have hv := two_le_value c
    simp only [hA, Bool.false_eq_true, if_false] at h2 h3
    omega

/-- `addCard` preserves the invariant that the bust flag tracks
`getValue > 21`. -/
theorem addCard_inv (h : Hand) (c : Card) (ih : h.isBusted = true ↔ 21 < h.getValue) :
    ((h.addCard c).isBusted = true ↔ 21 < (h.addCard c).getValue) := by
  have hVal : (h.addCard c).getValue = Hand.getValue { h with cards := h.cards ++ [c] } :=
    getValue_cards_only _ _ (by rw [addCard_cards])
  have hBust : (h.addCard c).isBusted =
      (if 21 < Hand.getValue { h with cards := h.cards ++ [c] } then true else h.isBusted) := by
    unfold Hand.addCard Hand.checkBust
    split <;> rfl
  by_cases hb : 21 < Hand.getValue { h with cards := h.cards ++ [c] }
  · rw [hBust, hVal, if_pos hb]
    simp [hb]
  · rw [hBust, hVal, if_neg hb]
    constructor
    · intro hB
      have hold := ih.mp hB
      have hstep := addCard_getValue_of_busted h c hold
      rw [hVal] at hstep
      omega
    · intro h21
      exact absurd h21 hb

/-- The invariant propagated along any `foldl` of `addCard` calls. -/
theorem foldl_addCard_inv : ∀ (cs : List Card) (h : Hand),
    (h.isBusted = true ↔ 21 < h.getValue) →
    ((cs.foldl Hand.addCard h).isBusted = true ↔ 21 < (cs.foldl Hand.addCard h).getValue) := by
  intro cs
  induction cs with
  | nil => intro h ih; exact ih
  | cons c cs ihl =>
    intro h ih
    exact ihl (h.addCard c) (addCard_inv h c ih)

/-! ## Helper lemmas for the Fisher–Yates permutation argument -/

/-- Moving the element at position `m` to the front while writing `a`
into its slot is a permutation of pushing `a` on front. -/
theorem cons_set_perm {α : Type _} : ∀ (t : List α) (m : Nat) (b a : α),
    t.get? m = some b → (b :: t.set m a).Perm (a :: t) := by
  intro t
  induction t with
  | nil => intro m b a h; simp at h
  | cons c s ih =>
    intro m b a h
    cases m with
    | zero =>
      have hcb : c = b := by simpa using h
      rw [← hcb]
      simp only [List.set]
      exact List.Perm.swap a c s
    | succ k =>
      simp only [List.get?] at h
      simp only [List.set]
      exact (List.Perm.swap c b (s.set k a)).trans
        (((ih k b a h).cons c).trans (List.Perm.swap a c s))

/-- Writing each of two in-range elements into the other slot permutes
the list. -/
theorem set_set_perm {α : Type _} : ∀ (l : List α) (i j : Nat) (a b : α),
    l.get? i = some a → l.get? j = some b → ((l.set i b).set j a).Perm l := by
  intro l
  induction l with
  | nil => intro i j a b h _; simp at h
  | cons c t ih =>
    intro i j a b hi hj
    cases i with
    | zero =>
      cases j with
      | zero =>
        have h1 : c = a := by simpa using hi
        have h2 : c = b := by simpa using hj
        rw [← h1, ← h2]
        simp [List.set]
      | succ k =>
        have h1 : c = a := by simpa using hi
        simp only [List.get?] at hj
        simp only [List.set]
        rw [← h1]
        exact cons_set_perm t k b c hj
    | succ m =>
      cases j with
      | zero =>
        have h2 : c = b := by simpa using hj
        simp only [List.get?] at hi
        simp only [List.set]
        rw [← h2]
        exact cons_set_perm t m a c hi
      | succ k =>
        simp only [List.get?] at hi hj
        simp only [List.set]
        exact (ih m k a b hi hj).cons c

/-- A JS destructuring swap never duplicates or loses an element. -/
theorem listSwap_perm {α : Type _} (l : List α) (i j : Nat) :
    (listSwap l i j).Perm l := by
  unfold listSwap
  cases hi : l.get? i with
  | none => cases hj : l.get? j <;> exact List.Perm.refl l
  | some a =>
    cases hj : l.get? j with
    | none => exact List.Perm.refl l
    | some b => exact set_set_perm l i j a b hi hj

/-- Any run of the Fisher–Yates loop is a permutation. -/
theorem fisherYatesAux_perm (rnd : Nat → Nat) :
    ∀ (n : Nat) (l : List Card), (fisherYatesAux rnd n l).Perm l := by
  intro n
  induction n with
  | zero => intro l; exact List.Perm.refl l
  | succ i ih =>
    intro l
    exact (ih _).trans (listSwap_perm l (i + 1) (rnd (i + 1) % (i + 1 + 1)))

/-! ## Helper lemmas about the running count -/

/-- `updateCount` never changes the active counting system. -/
theorem updateCount_countingSystem (d : Deck) (x : Option Card) :
    (d.updateCount x).countingSystem = d.countingSystem := by
  cases x with
  | none => rfl
  | some c =>
    by_cases hf : c.faceUp = true
    · simp [Deck.updateCount, hf]
    · simp [Deck.updateCount, hf]

/-- Folding `updateCount` over a card sequence accumulates exactly the
weights of the face-up cards. -/
theorem foldl_updateCount : ∀ (cs : List Card) (d : Deck),
    (cs.foldl (fun d c => d.updateCount (some c)) d).runningCount =
      d.runningCount + ((cs.filter fun c => c.faceUp).map
        fun c => systemWeight d.countingSystem c.rank).sum := by
  intro cs
  induction cs with
  | nil => intro d; simp
  | cons c cs ih =>
    intro d
    simp only [List.foldl_cons]
    rw [ih]
    cases hf : c.faceUp with
    | true =>
      simp [Deck.updateCount, hf, List.filter_cons]
      omega
    | false =>
      simp [Deck.updateCount, hf, List.filter_cons]

/-! ## Claim theorems -/

/-- C1 (code bug): with balance 10000, a bet of 100 placed (balance 9900)
and the only hand surrendered, the round ends with balance back at 10000:
`surrender()` refunds half the stake and `resolveHands` then pays the same
half again for the already-surrendered hand, so the balance does NOT end
`bet/2` lower than before the bet as the specification requires. -/
theorem surrender_double_refund :
    (BlackjackGame.surrender gC1).balance = 10000 ∧
    (BlackjackGame.surrender gC1).state = GState.GAME_OVER ∧
    (BlackjackGame.surrender gC1).balance ≠ (10000 : ℚ) - 100 / 2 := by
  refine ⟨by decide, by decide, by decide⟩

/-- C3 (code bug): in a reachable four-hand state whose current hand is a
splittable pair, the game-level `canSplit()` predicate answers `false`
(four-hand cap), yet `split()` — which never consults that cap — still
acts and produces a fifth hand, breaking the 1–4 hand invariant. -/
theorem split_ignores_hand_cap :
    gC3.playerHands.length = 4 ∧
    gC3.canSplit = false ∧
    (BlackjackGame.split gC3).playerHands.length = 5 := by
  refine ⟨by decide, by decide, by decide⟩

/-- C6: `getValue` on [A,A,9] is 21 and on [A,A,A,9] is 12, and whenever
the result exceeds 21 every ace has been reduced, i.e. the value equals
the raw sum minus 10 per ace — the result never exceeds 21 while an ace
is still reducible. -/
theorem getValue_ace_reduction :
    (mkHand [createCard .spades .ace, createCard .hearts .ace,
             createCard .clubs .nine]).getValue = 21 ∧
    (mkHand [createCard .spades .ace, createCard .hearts .ace,
             createCard .diamonds .ace, createCard .clubs .nine]).getValue = 12 ∧
    ∀ h : Hand, 21 < h.getValue → h.getValue = h.rawValue - 10 * h.aceCount := by
  refine ⟨by decide, by decide, ?_⟩
  intro h hb
  exact reduceAces_of_gt h.aceCount h.rawValue hb

/-- Witness for C6 at the busted hand [K,Q,5]. -/
theorem getValue_ace_reduction_witness :
    21 < hKQ5.getValue ∧ hKQ5.getValue = hKQ5.rawValue - 10 * hKQ5.aceCount :=
  ⟨by decide, getValue_ace_reduction.2.2 hKQ5 (by decide)⟩

/-- C10 counterexample: on the soft 16 [A,5] (built by `addCard`),
adding a king leaves `getValue` unchanged at 16 — an added card does NOT
always increase `getValue()` by at least 1 as the claim asserts. -/
theorem addCard_can_keep_value :
    hA5.getValue = 16 ∧
    (hA5.addCard (createCard .clubs .king)).getValue = 16 ∧
    hA5.isBusted = false := by
  refine ⟨by decide, by decide, by decide⟩

/-- C10 (amended): for a hand built from empty solely by `addCard`
calls, after each call `isBusted` holds exactly when `getValue` exceeds
21; on a hand that is already busted every added card raises `getValue`
by at least 1 (in general a card may leave `getValue` unchanged by
forcing an ace reduction), and `addCard` never clears the bust flag, so a
busted hand stays busted. -/
theorem bust_latch_spec :
    (∀ cs : List Card, ((mkHand cs).isBusted = true ↔ 21 < (mkHand cs).getValue)) ∧
    (∀ (h : Hand) (c : Card), 21 < h.getValue → h.getValue + 1 ≤ (h.addCard c).getValue) ∧
    (∀ (h : Hand) (c : Card), h.isBusted = true → (h.addCard c).isBusted = true) := by
  refine ⟨?_, addCard_getValue_of_busted, addCard_isBusted_true⟩
  intro cs
  exact foldl_addCard_inv cs Hand.init (by decide)

/-- Witness for C10 at the busted hand [K,Q,5] plus a two. -/
theorem bust_latch_spec_witness :
    21 < hKQ5.getValue ∧
    hKQ5.getValue + 1 ≤ (hKQ5.addCard (createCard .spades .two)).getValue ∧
    (hKQ5.addCard (createCard .spades .two)).isBusted = true :=
  ⟨by decide, bust_latch_spec.2.1 hKQ5 (createCard .spades .two) (by decide),
   bust_latch_spec.2.2 hKQ5 (createCard .spades .two) (by decide)⟩

/-- C9: the running count after folding `updateCount` over any card
sequence equals the old count plus the sum of the active system's weights
over exactly the face-up cards; `updateCount` is a complete no-op on a
face-down card (and on `null`); and `dealCardToHand` adds exactly the
dealt card's weight when dealing face-up and nothing when dealing
face-down. -/
theorem runningCount_spec :
    (∀ (d : Deck) (cs : List Card),
        (cs.foldl (fun d c => d.updateCount (some c)) d).runningCount =
          d.runningCount + ((cs.filter fun c => c.faceUp).map
            fun c => systemWeight d.countingSystem c.rank).sum) ∧
    (∀ (d : Deck) (c : Card), c.faceUp = false → d.updateCount (some c) = d) ∧
    (∀ d : Deck, d.updateCount none = d) ∧
    (∀ (g : BlackjackGame) (t : HandTarget) (fUp : Bool) (card : Card),
        g.deck.cards.getLast? = some card →
        (g.dealCardToHand t fUp).deck.runningCount =
          g.deck.runningCount +
            (if fUp then systemWeight g.deck.countingSystem card.rank else 0)) := by
  refine ⟨fun d cs => foldl_updateCount cs d, ?_, fun d => rfl, ?_⟩
  · intro d c hf
    simp [Deck.updateCount, hf]
  · intro g t fUp card h
    unfold BlackjackGame.dealCardToHand
    rw [h]
    cases t with
    | player i =>
      cases fUp <;>
        simp [BlackjackGame.setHand, BlackjackGame.getHand, Deck.updateCount]
    | dealer =>
      cases fUp <;>
        simp [BlackjackGame.setHand, BlackjackGame.getHand, Deck.updateCount]

/-- Witness for C9: a face-down deal leaves the count alone, a face-up
deal of a five adds its Hi-Lo weight. -/
theorem runningCount_spec_witness :
    (deckWith [faceDownCard .spades .king]).updateCount
        (some (faceDownCard .spades .king)) = deckWith [faceDownCard .spades .king] ∧
    (gW9.dealCardToHand HandTarget.dealer true).deck.runningCount =
      gW9.deck.runningCount +
        (if true then systemWeight gW9.deck.countingSystem
          (createCard .spades .five).rank else 0) :=
  ⟨runningCount_spec.2.1 (deckWith [faceDownCard .spades .king])
      (faceDownCard .spades .king) (by decide),
   runningCount_spec.2.2.2 gW9 HandTarget.dealer true
      (createCard .spades .five) (by decide)⟩

/-- C4 counterexample: on a single-deck shoe from which one card has been
dealt (non-empty discard pile), `shuffle()` does NOT leave the draw pile
a permutation of the full `deckCount*52` multiset — the dealt card is
simply dropped, because `shuffle()` clears the discard pile without
merging it back. -/
theorem shuffle_drops_discard_pile :
    dC4.dealtCards ≠ [] ∧
    ¬ (Deck.shuffle dC4 rndZero).cards.Perm (initCards dC4.deckCount) := by
  constructor
  · decide
  · intro hperm
    have h1 : (Deck.shuffle dC4 rndZero).cards.Perm dC4.cards :=
      fisherYatesAux_perm rndZero (dC4.cards.length - 1) dC4.cards
    have hl1 := h1.length_eq
    have hl2 := hperm.length_eq
    have h51 : dC4.cards.length = 51 := by decide
    have h52 : (initCards dC4.deckCount).length = 52 := by decide
    omega

/-- C4 (amended): `shuffle()` always permutes exactly the cards that were
in the draw pile (no duplication, no loss of those), and clears the
discard pile and running count; `reshuffle()` permutes draw pile plus
discard pile; and whenever the discard pile is already empty — as at
every `shuffle()` call site in the repository — a draw pile holding the
full `deckCount*52` multiset is shuffled to a permutation of that full
multiset. -/
theorem shuffle_perm_spec (d : Deck) (rnd : Nat → Nat) :
    (d.shuffle rnd).cards.Perm d.cards ∧
    (d.shuffle rnd).dealtCards = [] ∧
    (d.shuffle rnd).runningCount = 0 ∧
    (d.reshuffle rnd).cards.Perm (d.cards ++ d.dealtCards) ∧
    (d.dealtCards = [] → d.cards.Perm (initCards d.deckCount) →
      (d.shuffle rnd).cards.Perm (initCards d.deckCount)) := by
  refine ⟨fisherYatesAux_perm rnd (d.cards.length - 1) d.cards, rfl, rfl, ?_, ?_⟩
  · exact fisherYatesAux_perm rnd ((d.cards ++ d.dealtCards).length - 1)
      (d.cards ++ d.dealtCards)
  · intro _ hp
    exact (fisherYatesAux_perm rnd (d.cards.length - 1) d.cards).trans hp

/-- Witness for C4 on a freshly initialized single-deck shoe. -/
theorem shuffle_perm_spec_witness :
    (dInit.shuffle rndZero).cards.Perm (initCards dInit.deckCount) :=
  (shuffle_perm_spec dInit rndZero).2.2.2.2 rfl (List.Perm.refl _)

/-- C7: `getTrueCount()` returns the raw running count exactly when
fewer than 26 cards (half a deck) remain, and otherwise returns an
integer within one half of the exact ratio running count ÷ decks
remaining — i.e. that ratio rounded to the nearest integer (ties toward
positive infinity, as JS `Math.round`). -/
theorem trueCount_spec :
    (∀ d : Deck, d.cards.length < 26 → d.getTrueCount = d.runningCount) ∧
    (∀ d : Deck, 26 ≤ d.cards.length →
      |(d.getTrueCount : ℚ) - (d.runningCount : ℚ) * 52 / (d.cards.length : ℚ)| ≤ 1 / 2) := by
  constructor
  · intro d h
    unfold Deck.getTrueCount
    rw [if_pos]
    rw [div_lt_div_iff₀ (by norm_num) (by norm_num)]
    have h26 : (d.cards.length : ℚ) < 26 := by exact_mod_cast h
    linarith
  · intro d h
    have h26 : (26 : ℚ) ≤ (d.cards.length : ℚ) := by exact_mod_cast h
    have hpos : (0 : ℚ) < (d.cards.length : ℚ) := by linarith
    unfold Deck.getTrueCount
    rw [if_neg]
    · unfold jsRound
      rw [div_div_eq_mul_div]
      set q : ℚ := (d.runningCount : ℚ) * 52 / (d.cards.length : ℚ) with hq
      have h1 : ((⌊q + 1 / 2⌋ : Int) : ℚ) ≤ q + 1 / 2 := Int.floor_le _
      have h2 : q + 1 / 2 - 1 < ((⌊q + 1 / 2⌋ : Int) : ℚ) := Int.sub_one_lt_floor _
      rw [abs_le]
      constructor <;> linarith
    · rw [not_lt, le_div_iff₀ (by norm_num : (0:ℚ) < 52)]
      linarith

/-- Witness for C7: a 10-card shoe returns the raw count 5; a full
single deck with count 3 lands within a half of 3*52/52. -/
theorem trueCount_spec_witness :
    dW7a.cards.length < 26 ∧ dW7a.getTrueCount = dW7a.runningCount ∧
    26 ≤ dW7b.cards.length ∧
    |(dW7b.getTrueCount : ℚ) - (dW7b.runningCount : ℚ) * 52 / (dW7b.cards.length : ℚ)| ≤ 1 / 2 :=
  ⟨by decide, trueCount_spec.1 dW7a (by decide), by decide,
   trueCount_spec.2 dW7b (by decide)⟩

/-- C2 counterexample: in the INSURANCE phase with dealer [A,9-down] and
player 12 (neither side a blackjack), `handleInsuranceDecision` leaves
the hole card face-down and the running count untouched for both
decisions — the hole card is NOT revealed regardless of blackjacks. -/
theorem insurance_decision_keeps_hole_hidden :
    gC2.state = GState.INSURANCE ∧
    holeRevealed gC2 = false ∧
    holeRevealed (BlackjackGame.handleInsuranceDecision gC2 false) = false ∧
    holeRevealed (BlackjackGame.handleInsuranceDecision gC2 true) = false ∧
    (BlackjackGame.handleInsuranceDecision gC2 false).deck.runningCount =
      gC2.deck.runningCount ∧
    (BlackjackGame.handleInsuranceDecision gC2 false).state = GState.PLAYER_TURN := by
  refine ⟨by decide, by decide, by decide, by decide, by decide, by decide⟩

/-- C5 counterexample: for a hard 10 (6+4) against dealer value 10 at
true count 4 with doubling unavailable, the decision function suppresses
the `10_10` DOUBLE deviation and returns nothing, while the display
companion — which never consults legality — still reports a DOUBLE
deviation: the two functions do NOT share the suppression logic. -/
theorem deviation_info_ignores_legality :
    checkDeviationIndex hC5 10 4 false true = none ∧
    (getDeviationInfo hC5 10 4).isDeviation = true ∧
    (getDeviationInfo hC5 10 4).action = some GameAction.DOUBLE := by
  refine ⟨by decide, by decide, by decide⟩

/-- C8: `placeBet` returns `false` with the entire game state unchanged
whenever the phase is not BETTING or the amount is below the minimum,
above the maximum, or above the balance; otherwise it returns `true`,
deducts the amount, records it as hand 0's stake (all other hand fields
kept), stores it as the current bet and adds it to the total-wagered
statistic, leaving the rest of the statistics alone. -/
theorem placeBet_spec (g : BlackjackGame) (amount : ℚ) :
    ((g.state ≠ GState.BETTING ∨ amount < g.settings.minBet ∨
        g.settings.maxBet < amount ∨ g.balance < amount) →
      g.placeBet amount = (false, g)) ∧
    (g.state = GState.BETTING → g.settings.minBet ≤ amount →
      amount ≤ g.settings.maxBet → amount ≤ g.balance →
      g.placeBet amount =
        (true,
         { g with currentBet := amount,
                  balance := g.balance - amount,
                  playerHands := setBetOnHand g.playerHands 0 amount,
                  stats := { g.stats with
                    totalWagered := g.stats.totalWagered + amount } })) ∧
    (∀ h0, g.playerHands.get? 0 = some h0 →
      (setBetOnHand g.playerHands 0 amount).get? 0 = some { h0 with bet := amount }) := by
  refine ⟨?_, ?_, ?_⟩
  · intro hbad
    unfold BlackjackGame.placeBet
    split_ifs with h1 h2 h3
    · rfl
    · rfl
    · rfl
    · exfalso
      rcases hbad with h | h | h | h
      · exact h1 h
      · exact h2 (Or.inl h)
      · exact h2 (Or.inr h)
      · exact h3 h
  · intro hs hmin hmax hbal
    unfold BlackjackGame.placeBet
    rw [if_neg (by simp [hs]),
        if_neg (not_or.mpr ⟨not_lt.mpr hmin, not_lt.mpr hmax⟩),
        if_neg (not_lt.mpr hbal)]
  · intro h0 hh
    cases hl : g.playerHands with
    | nil => rw [hl] at hh; simp at hh
    | cons x t =>
      rw [hl] at hh
      simp only [List.get?] at hh
      injection hh with hx
      subst hx
      simp [setBetOnHand, List.set]

/-- Witness for C8: a 100 bet in the betting phase succeeds, a 5 bet is
below the 10 minimum and fails. -/
theorem placeBet_spec_witness :
    (gW8.placeBet 100).1 = true ∧ (gW8.placeBet 5).1 = false := by
  have h1 := (placeBet_spec gW8 100).2.1 rfl (by decide) (by decide) (by decide)
  have h2 := (placeBet_spec gW8 5).1 (Or.inr (Or.inl (by decide)))
  rw [h1, h2]
  exact ⟨rfl, rfl⟩

/-- C5 (amended): when both doubling and splitting are available the
decision function and the display companion agree exactly — the
companion reports a deviation with a given action precisely when
`checkDeviationIndex` returns that action; the difference between them
is only that the companion never suppresses a DOUBLE/SPLIT deviation for
legality. -/
theorem deviation_functions_agree_when_legal (h : Hand) (dv : Nat) (tc : Int) :
    checkDeviationIndex h dv tc true true = (getDeviationInfo h dv tc).action ∧
    (getDeviationInfo h dv tc).isDeviation = (checkDeviationIndex h dv tc true true).isSome := by
  unfold checkDeviationIndex getDeviationInfo
  cases hTT : DEVIATION_INDICES_TT dv <;>
    cases hREG : DEVIATION_INDICES h.getValue dv <;>
      by_cases hp : h.canSplit = true ∧ card0ValueIs10 h = true <;>
        simp_all <;> split_ifs <;> simp_all

theorem getD_set_self {α : Type _} (l : List α) (i : Nat) (a d : α) :
    (l.set i a).getD i d = if i < l.length then a else d := by
  by_cases h : i < l.length
  · rw [if_pos h]
    simp [List.getD, List.getElem?_set_eq_of_lt a h]
  · rw [if_neg h, List.set_eq_of_length_le (le_of_not_lt h),
        List.getD_eq_default _ _ (le_of_not_lt h)]

theorem get?_set_lt {α : Type _} (l : List α) (i : Nat) (a : α) (h : i < l.length) :
    (l.set i a).get? i = some a := by
  rw [List.get?_eq_getElem?]
  exact List.getElem?_set_eq_of_lt a h

theorem applyInsuranceChoice_deck (g : BlackjackGame) (t : Bool) :
    (g.applyInsuranceChoice t).deck = g.deck := by
  unfold BlackjackGame.applyInsuranceChoice
  dsimp only
  split_ifs <;> rfl

theorem applyInsuranceChoice_dealerHand (g : BlackjackGame) (t : Bool) :
    (g.applyInsuranceChoice t).dealerHand = g.dealerHand := by
  unfold BlackjackGame.applyInsuranceChoice
  dsimp only
  split_ifs <;> rfl

theorem isBlackjack_congr (h h' : Hand) (hc : h.cards = h'.cards)
    (hs : h.isSplit = h'.isSplit) : h.isBlackjack = h'.isBlackjack := by
  simp [Hand.isBlackjack, Hand.getValue, Hand.rawValue, Hand.aceCount, hc, hs]

theorem applyInsuranceChoice_currentHand_fields (g : BlackjackGame) (t : Bool) :
    (g.applyInsuranceChoice t).currentHand.cards = g.currentHand.cards ∧
    (g.applyInsuranceChoice t).currentHand.isSplit = g.currentHand.isSplit := by
  unfold BlackjackGame.applyInsuranceChoice
  dsimp only
  split_ifs with h1 h2
  · simp only [BlackjackGame.currentHand]
    rw [getD_set_self]
    by_cases hl : g.currentHandIndex < g.playerHands.length
    · rw [if_pos hl]
      exact ⟨rfl, rfl⟩
    · rw [if_neg hl, List.getD_eq_default _ _ (le_of_not_lt hl)]
      exact ⟨rfl, rfl⟩
  · exact ⟨rfl, rfl⟩
  · exact ⟨rfl, rfl⟩

theorem applyInsuranceChoice_currentHand_isBlackjack (g : BlackjackGame) (t : Bool) :
    (g.applyInsuranceChoice t).currentHand.isBlackjack = g.currentHand.isBlackjack :=
  isBlackjack_congr _ _ (applyInsuranceChoice_currentHand_fields g t).1
    (applyInsuranceChoice_currentHand_fields g t).2

theorem revealHole_spec (g : BlackjackGame) (hole : Card)
    (hh : g.dealerHand.cards.get? 1 = some hole) :
    holeRevealed (g.revealHole) = true ∧
    (g.revealHole).deck.runningCount =
      g.deck.runningCount + systemWeight g.deck.countingSystem hole.rank := by
  have hlen : 1 < g.dealerHand.cards.length := by
    rcases List.get?_eq_some.mp hh with ⟨hl, _⟩
    exact hl
  unfold BlackjackGame.revealHole
  rw [hh]
  constructor
  · simp [holeRevealed, List.getElem?_set_eq_of_lt _ hlen]
  · simp [Deck.updateCount]

/-- C2 (amended): in the INSURANCE phase, `handleInsuranceDecision`
reveals the dealer hole card and adds its counting weight exactly when
the dealer or the player holds a blackjack (the reveal is independent of
the insurance decision itself); when neither holds a blackjack the hole
card stays face-down, the shoe is untouched and play moves to
PLAYER_TURN — the reveal then happens later, at the dealer turn. -/
theorem insurance_decision_reveal_iff_blackjack (g : BlackjackGame) (take : Bool) (hole : Card)
    (hstate : g.state = GState.INSURANCE)
    (hhole : g.dealerHand.cards.get? 1 = some hole) :
    ((g.dealerHand.isBlackjack = true ∨ g.currentHand.isBlackjack = true) →
      holeRevealed (g.handleInsuranceDecision take) = true ∧
      (g.handleInsuranceDecision take).deck.runningCount =
        g.deck.runningCount + systemWeight g.deck.countingSystem hole.rank) ∧
    (g.dealerHand.isBlackjack = false → g.currentHand.isBlackjack = false →
      (g.handleInsuranceDecision take).state = GState.PLAYER_TURN ∧
      (g.handleInsuranceDecision take).deck = g.deck ∧
      (g.handleInsuranceDecision take).dealerHand = g.dealerHand) := by
  have hdk := applyInsuranceChoice_deck g take
  have hdh := applyInsuranceChoice_dealerHand g take
  have hbj := applyInsuranceChoice_currentHand_isBlackjack g take
  have hh1 : (g.applyInsuranceChoice take).dealerHand.cards.get? 1 = some hole := by
    rw [hdh]; exact hhole
  obtain ⟨hrev, hrc⟩ := revealHole_spec (g.applyInsuranceChoice take) hole hh1
  rw [hdk] at hrc
  unfold BlackjackGame.handleInsuranceDecision
  rw [if_neg (by simp [hstate])]
  dsimp only
  constructor
  · intro hor
    by_cases hd : (g.applyInsuranceChoice take).dealerHand.isBlackjack = true
    · rw [if_pos hd]
      dsimp only [BlackjackGame.endRound]
      split_ifs <;> exact ⟨hrev, hrc⟩
    · rw [if_neg hd]
      have hp : g.currentHand.isBlackjack = true := by
        rcases hor with h | h
        · exact absurd (by rw [hdh]; exact h) hd
        · exact h
      rw [if_pos (by rw [hbj]; exact hp)]
      unfold BlackjackGame.handleBlackjack BlackjackGame.endRound
      dsimp only
      split_ifs <;> exact ⟨hrev, hrc⟩
  · intro hd hp
    rw [if_neg (by rw [hdh, hd]; simp)]
    rw [if_neg (by rw [hbj, hp]; simp)]
    exact ⟨rfl, hdk, hdh⟩

/-- Witness for C2 at the concrete no-blackjack insurance state. -/
theorem insurance_decision_reveal_iff_blackjack_witness :
    (BlackjackGame.handleInsuranceDecision gC2 false).state = GState.PLAYER_TURN ∧
    (BlackjackGame.handleInsuranceDecision gC2 false).deck = gC2.deck ∧
    (BlackjackGame.handleInsuranceDecision gC2 false).dealerHand = gC2.dealerHand :=
  (insurance_decision_reveal_iff_blackjack gC2 false (faceDownCard .diamonds .nine)
    (by decide) (by decide)).2 (by decide) (by decide)
